import Mathlib

/-!
A verification development for the `FargateService` construct of this
repository (`src/unnamed/part_001`, compiled as `src/dist/fargate.js`, and the
older variant `src/src/fargate.ts`).  The in-scope logic is the task
configuration resolution performed in the constructor: compiling the secrets
map into resolved secret references, picking the container image from the
version selector, and applying sizing defaults.

JavaScript semantics are embedded shallowly:
* a JS string is a Lean `String`; `value.split(':')` (single-character
  separator) is `jsSplit`, built on a character-level splitter `splitChars`;
* a possibly-`undefined` JS value is an `Option`; array destructuring
  `const [a, b] = xs` binds `a` to `xs[0]` and `b` to `xs[1]`, which is
  `undefined` when the array is shorter, hence `Option` results;
* a JS `Record<string, string>` is an association list with distinct keys,
  in the object's (insertion) iteration order;
* `x || d` on a number defaults both `undefined` and `0` (falsy) to `d`;
  on an object (such as a `cdk.Duration`) only `undefined` defaults;
* a `TypeError` thrown by dereferencing `undefined` is an `Except.error`.
-/

namespace AwsFargate

/-- `const DEFAULT_IMAGE = 'nginxdemos/hello:latest'` -/
def DEFAULT_IMAGE : String := "nginxdemos/hello:latest"

/-- `const DEFAULT_VERSION = 'default'` -/
def DEFAULT_VERSION : String := "default"

/-- Character-level splitter: `splitChars sep cs` is JS `cs.split(sep)` on the
character list of a string.  It always returns at least one segment, and never
drops separators: segments are the maximal separator-free runs. -/
def splitChars (sep : Char) : List Char → List (List Char)
  | [] => [[]]
  | c :: cs =>
    let rest := splitChars sep cs
    if c = sep then [] :: rest
    else
      match rest with
      | [] => [[c]]
      | r :: rs => (c :: r) :: rs

/-- Embeds JS `value.split(sep)` for a single-character separator. -/
def jsSplit (value : String) (sep : Char) : List String :=
  (splitChars sep value.toList).map List.asString

/-- Embeds a JS method call `value.split(sep)` on a possibly-`undefined`
receiver: dereferencing `undefined` throws a `TypeError`. -/
def jsSplitE (value : Option String) (sep : Char) :
    Except String (List String) :=
  match value with
  | none => Except.error "TypeError: Cannot read properties of undefined"
  | some s => Except.ok (jsSplit s sep)

/-- The pair bound by
`const [secretName, fieldName] = value.split(':').slice(0, 2)` in
`src/unnamed/part_001` lines 88-92.  `fieldName` is `undefined` (here `none`)
when the split produced fewer than two segments.  (`split` always returns at
least one segment, so `secretName` is always defined; `headD ""` is that
segment.) -/
structure ResolvedSecretReference where
  secretName : String
  fieldName : Option String
deriving DecidableEq, Repr

/-- `const [secretName, fieldName] = value.split(':').slice(0, 2)` -/
def destructureSecretValue (value : String) : ResolvedSecretReference :=
  let parts := (jsSplit value ':').take 2
  { secretName := parts.headD "", fieldName := parts[1]? }

/-- Embeds `cdk.Duration` as its seconds count; `cdk.Duration.seconds(n)`
constructs one.  A JS `Duration` is an object and hence always truthy. -/
structure Duration where
  toSeconds : Nat
deriving DecidableEq, Repr

/-- `cdk.Duration.seconds(n)` -/
def Duration.seconds (n : Nat) : Duration := ⟨n⟩

/-- The `TaskConfiguration` interface of `src/unnamed/part_001`: every field
is optional (`none` is JS `undefined`). -/
structure TaskConfiguration where
  memoryLimitMiB : Option Nat := none
  healthCheckGracePeriod : Option Duration := none
  cpu : Option Nat := none
  desiredCount : Option Nat := none
  environment : Option (List (String × String)) := none
  secrets : Option (List (String × String)) := none
deriving DecidableEq, Repr

/-- The secrets compilation loop of `src/unnamed/part_001` lines 80-95:
iterate `Object.entries(secretValues)` in order, skip falsy (empty-string)
values, and record `destructureSecretValue value` under the entry's key.
An absent map (`undefined`) leaves the result empty. -/
def resolveSecrets (secretValues : Option (List (String × String))) :
    List (String × ResolvedSecretReference) :=
  match secretValues with
  | none => []
  | some entries =>
    entries.filterMap fun e =>
      if e.2 != "" then some (e.1, destructureSecretValue e.2) else none

/-- The secrets compilation loop of `src/unnamed/part_001` with the JS
failure points made explicit: the only dereference in the loop body is
`value.split(':')`, whose receiver is the (always defined) entry value. -/
def resolveSecretsE (secretValues : Option (List (String × String))) :
    Except String (List (String × ResolvedSecretReference)) :=
  match secretValues with
  | none => Except.ok []
  | some entries =>
    entries.foldlM
      (fun acc e =>
        if e.2 != "" then
          match jsSplitE (some e.2) ':' with
          | Except.error err => Except.error err
          | Except.ok segments =>
            Except.ok
              (acc ++
                [(e.1,
                  ⟨(segments.take 2).headD "", (segments.take 2)[1]?⟩)])
        else Except.ok acc)
      []

/-- `Object.keys(secretValues)` -/
def objectKeys (m : List (String × String)) : List String := m.map Prod.fst

/-- JS property read `m[k]`: `undefined` (`none`) when the key is absent. -/
def jsIndex (m : List (String × String)) (k : String) : Option String :=
  m.lookup k

/-- The secrets compilation loop of `src/src/fargate.ts` lines 73-87:
`for (const secretKey in Object.keys(secretValues))` iterates the
enumerable keys OF THE ARRAY returned by `Object.keys`, i.e. the index
strings `"0"`, `"1"`, ...; each iteration reads
`secretValues[secretKey]` (possibly `undefined`) and calls `.split(':')`
on it, with no falsy guard. -/
def resolveSecretsTs (secretValues : Option (List (String × String))) :
    Except String (List (String × ResolvedSecretReference)) :=
  match secretValues with
  | none => Except.ok []
  | some m =>
    ((List.range (objectKeys m).length).map (fun i => toString i)).foldlM
      (fun acc secretKey =>
        match jsSplitE (jsIndex m secretKey) ':' with
        | Except.error err => Except.error err
        | Except.ok segments =>
          Except.ok
            (acc ++
              [(secretKey,
                ⟨(segments.take 2).headD "", (segments.take 2)[1]?⟩)]))
      []

/-- The image constructions the constructor can forward to the service:
`ecs.ContainerImage.fromRegistry(name)` or
`ecs.ContainerImage.fromEcrRepository(repository, tag)` (the repository is
embedded as an opaque identifier string). -/
inductive ContainerImage where
  | fromRegistry (name : String)
  | fromEcrRepository (repository : String) (tag : String)
deriving DecidableEq, Repr

/-- `src/unnamed/part_001` lines 98-101:
`imageVersion === DEFAULT_VERSION ? fromRegistry(DEFAULT_IMAGE)
: fromEcrRepository(repository, imageVersion)`. -/
def resolveImage (imageVersion : String) (repository : String) :
    ContainerImage :=
  if imageVersion = DEFAULT_VERSION then
    ContainerImage.fromRegistry DEFAULT_IMAGE
  else
    ContainerImage.fromEcrRepository repository imageVersion

/-- JS `x || d` on an optional number: `undefined` and `0` are falsy. -/
def jsOrNat (x : Option Nat) (d : Nat) : Nat :=
  match x with
  | none => d
  | some n => if n = 0 then d else n

/-- JS `x || d` on an optional object: only `undefined` is falsy. -/
def jsOrDuration (x : Option Duration) (d : Duration) : Duration :=
  match x with
  | none => d
  | some v => v

/-- The four sizing values forwarded to
`ApplicationLoadBalancedFargateService`. -/
structure ResolvedSizing where
  memoryLimitMiB : Nat
  cpu : Nat
  desiredCount : Nat
  healthCheckGracePeriod : Duration
deriving DecidableEq, Repr

/-- `src/unnamed/part_001` lines 111-115:
`memoryLimitMiB: taskConfiguration?.memoryLimitMiB || 512`,
`healthCheckGracePeriod: taskConfiguration?.healthCheckGracePeriod ||
cdk.Duration.seconds(60)`, `cpu: taskConfiguration?.cpu || 256`,
`desiredCount: taskConfiguration?.desiredCount || 1`. -/
def resolveSizing (taskConfiguration : TaskConfiguration) : ResolvedSizing :=
  { memoryLimitMiB := jsOrNat taskConfiguration.memoryLimitMiB 512
    cpu := jsOrNat taskConfiguration.cpu 256
    desiredCount := jsOrNat taskConfiguration.desiredCount 1
    healthCheckGracePeriod :=
      jsOrDuration taskConfiguration.healthCheckGracePeriod
        (Duration.seconds 60) }

/-- The sizing expressions with the optional chaining
`taskConfiguration?.field` made explicit: the receiver may itself be
`undefined`, in which case every access yields `undefined` and the default
applies. -/
def resolveSizingOpt (taskConfiguration : Option TaskConfiguration) :
    ResolvedSizing :=
  { memoryLimitMiB :=
      jsOrNat (taskConfiguration.bind TaskConfiguration.memoryLimitMiB) 512
    cpu := jsOrNat (taskConfiguration.bind TaskConfiguration.cpu) 256
    desiredCount :=
      jsOrNat (taskConfiguration.bind TaskConfiguration.desiredCount) 1
    healthCheckGracePeriod :=
      jsOrDuration
        (taskConfiguration.bind TaskConfiguration.healthCheckGracePeriod)
        (Duration.seconds 60) }

/-- The optional props of `FargateServiceProps` that the constructor
destructures with defaults (`src/unnamed/part_001` lines 67-77), plus the
repository they are resolved against. -/
structure FargateServiceProps where
  subDomainIncludingDot : Option String := none
  healthCheckPath : Option String := none
  imageVersion : Option String := none
  repository : String := ""
  taskConfiguration : TaskConfiguration := {}
deriving DecidableEq, Repr

/-- `const { imageVersion = DEFAULT_VERSION, ... } = props`: a destructuring
default applies exactly when the property is `undefined`. -/
def destructuredImageVersion (props : FargateServiceProps) : String :=
  match props.imageVersion with
  | none => DEFAULT_VERSION
  | some v => v

/-- The image the constructor passes to the service for the given props. -/
def pickedImage (props : FargateServiceProps) : ContainerImage :=
  resolveImage (destructuredImageVersion props) props.repository

/-- State of the secrets compilation loop: the mutable `secrets` object being
built and the input map `secretValues` it reads from. -/
structure LoopState where
  secrets : List (String × ResolvedSecretReference)
  secretValues : List (String × String)
deriving DecidableEq, Repr

/-- One iteration of the `for (const [secretKey, value] of Object.entries)`
loop body: only the `secrets` object is written (`secrets[secretKey] = ...`);
`secretValues` is never assigned. -/
def compileStep (st : LoopState) (entry : String × String) : LoopState :=
  if entry.2 != "" then
    { st with
        secrets :=
          st.secrets ++ [(entry.1, destructureSecretValue entry.2)] }
  else st

/-- Running the whole loop from the initial state (`const secrets = {}`,
the given `secretValues`). -/
def compileSecrets (m : List (String × String)) : LoopState :=
  m.foldl compileStep { secrets := [], secretValues := m }

/-! ## Helper lemmas -/

/-- `split` always returns at least one segment, like JS `String.split`. -/
theorem splitChars_ne_nil (sep : Char) (cs : List Char) :
    splitChars sep cs ≠ [] := by
  induction cs with
  | nil => simp [splitChars]
  | cons c cs ih =>
    by_cases h : c = sep
    · simp [splitChars, h]
    · simp only [splitChars, if_neg h]
      cases hrest : splitChars sep cs <;> simp

/-- The first segment of a split is the maximal separator-free run. -/
theorem splitChars_head (sep : Char) (cs : List Char) :
    ∃ t, splitChars sep cs = cs.takeWhile (fun c => c != sep) :: t := by
  induction cs with
  | nil => exact ⟨[], rfl⟩
  | cons c cs ih =>
    by_cases h : c = sep
    · refine ⟨splitChars sep cs, ?_⟩
      simp [splitChars, h, List.takeWhile_cons]
    · obtain ⟨t, ht⟩ := ih
      refine ⟨t, ?_⟩
      simp [splitChars, h, ht, List.takeWhile_cons]

/-- When the list is separator-free, the split is the whole list alone. -/
theorem splitChars_of_not_mem (sep : Char) (cs : List Char)
    (h : sep ∉ cs) : splitChars sep cs = [cs] := by
  induction cs with
  | nil => rfl
  | cons c cs ih =>
    have hc : ¬ c = sep := fun hceq => h (hceq ▸ List.mem_cons_self c cs)
    have hmem : sep ∉ cs := fun hm => h (List.mem_cons_of_mem c hm)
    simp [splitChars, hc, ih hmem]

/-- When the separator occurs, the split is the run before the first
separator followed by the split of what comes after it. -/
theorem splitChars_of_mem (sep : Char) (cs : List Char) (h : sep ∈ cs) :
    splitChars sep cs =
      cs.takeWhile (fun c => c != sep) ::
        splitChars sep ((cs.dropWhile (fun c => c != sep)).tail) := by
  induction cs with
  | nil => cases h
  | cons c cs ih =>
    by_cases hc : c = sep
    · subst hc
      simp [splitChars, List.takeWhile_cons, List.dropWhile_cons]
    · have hmem : sep ∈ cs := by
        rcases List.mem_cons.mp h with h1 | h1
        · exact absurd h1.symm hc
        · exact h1
      simp only [splitChars, if_neg hc, ih hmem, List.takeWhile_cons,
        List.dropWhile_cons]
      simp [hc]

/-- A separator-free value destructures into itself with an `undefined`
(second) field: `split` returns one segment and `slice(0,2)` keeps it. -/
theorem destructureSecretValue_of_not_mem (v : String)
    (h : ':' ∉ v.toList) :
    destructureSecretValue v = ⟨v, none⟩ := by
  unfold destructureSecretValue jsSplit
  rw [splitChars_of_not_mem _ _ h]
  simp only [List.map_cons, List.map_nil, List.take_cons, List.take_nil,
    List.headD_cons, List.getElem?_cons_succ, List.getElem?_nil]
  exact congrArg (fun s => ResolvedSecretReference.mk s none)
    (String.asString_toList v)

/-- A value with a colon destructures into the run before the first colon
and the run between the first and second colons. -/
theorem destructureSecretValue_of_mem (v : String) (h : ':' ∈ v.toList) :
    destructureSecretValue v =
      ⟨(v.toList.takeWhile (fun c => c != ':')).asString,
        some
          ((((v.toList.dropWhile (fun c => c != ':')).tail).takeWhile
            (fun c => c != ':')).asString)⟩ := by
  obtain ⟨t, ht⟩ :=
    splitChars_head ':' ((v.toList.dropWhile (fun c => c != ':')).tail)
  unfold destructureSecretValue jsSplit
  rw [splitChars_of_mem _ _ h, ht]
  simp

/-- The compiled secrets are the non-empty-valued entries, in order, with
their values destructured. -/
theorem resolveSecrets_some_eq (m : List (String × String)) :
    resolveSecrets (some m) =
      (m.filter (fun e => e.2 != "")).map
        (fun e => (e.1, destructureSecretValue e.2)) := by
  induction m with
  | nil => rfl
  | cons e m ih =>
    cases hb : (e.2 != "") <;>
      simp only [resolveSecrets, List.filterMap_cons, List.filter_cons, hb,
        if_false, if_true, List.map_cons] at ih ⊢
    · exact ih
    · rw [ih]

/-- Unfolding `resolveSecrets` on a present map. -/
theorem resolveSecrets_some (m : List (String × String)) :
    resolveSecrets (some m) =
      m.filterMap
        (fun e =>
          if e.2 != "" then some (e.1, destructureSecretValue e.2)
          else none) := rfl

/-- The explicit-failure loop, run from any accumulator, returns `ok` of the
accumulator extended with the destructured non-empty entries. -/
theorem resolveSecretsE_go (entries : List (String × String))
    (acc : List (String × ResolvedSecretReference)) :
    entries.foldlM
      (fun acc e =>
        if e.2 != "" then
          match jsSplitE (some e.2) ':' with
          | Except.error err => Except.error err
          | Except.ok segments =>
            Except.ok
              (acc ++
                [(e.1,
                  ⟨(segments.take 2).headD "", (segments.take 2)[1]?⟩)])
        else Except.ok acc)
      acc =
      Except.ok
        (acc ++
          entries.filterMap
            (fun e =>
              if e.2 != "" then some (e.1, destructureSecretValue e.2)
              else none)) := by
  induction entries generalizing acc with
  | nil =>
    simp only [List.foldlM_nil, List.filterMap_nil, List.append_nil]
    rfl
  | cons e es ih =>
    cases hb : (e.2 != "")
    · simp only [List.foldlM_cons, List.filterMap_cons, hb, if_false]
      exact ih acc
    · simp only [List.foldlM_cons, List.filterMap_cons, hb, if_true]
      refine (ih (acc ++ [(e.1, destructureSecretValue e.2)])).trans ?_
      rw [List.append_assoc]
      rfl

/-- The loop body only ever extends the `secrets` accumulator; the
`secretValues` component is passed through untouched, and the accumulated
secrets are the destructured non-empty entries. -/
theorem foldl_compileStep (entries : List (String × String))
    (acc : List (String × ResolvedSecretReference))
    (sv : List (String × String)) :
    entries.foldl compileStep ⟨acc, sv⟩ =
      ⟨acc ++
        entries.filterMap
          (fun e =>
            if e.2 != "" then some (e.1, destructureSecretValue e.2)
            else none), sv⟩ := by
  induction entries generalizing acc with
  | nil => simp
  | cons e es ih =>
    cases hb : (e.2 != "")
    · simp only [List.foldl_cons, compileStep, hb, if_false,
        List.filterMap_cons]
      exact ih acc
    · simp only [List.foldl_cons, compileStep, hb, if_true,
        List.filterMap_cons]
      refine (ih (acc ++ [(e.1, destructureSecretValue e.2)])).trans ?_
      rw [List.append_assoc]
      rfl

/-! ## Claims -/

/-- C1. For every secrets-map entry whose value is a non-empty string
containing at least one colon, `resolveSecrets` produces an output entry
under the same key whose `secretName` is the segment before the first colon
and whose `fieldName` is the second colon-delimited segment (the run between
the first colon and the following colon or the end of the value); segments
beyond the second are discarded. -/
theorem secrets_entry_with_colon (m : List (String × String)) (k v : String)
    (hm : (k, v) ∈ m) (hv : v ≠ "") (hc : ':' ∈ v.toList) :
    (k, ResolvedSecretReference.mk
        ((v.toList.takeWhile (fun c => c != ':')).asString)
        (some
          ((((v.toList.dropWhile (fun c => c != ':')).tail).takeWhile
            (fun c => c != ':')).asString)))
      ∈ resolveSecrets (some m) := by
  have hmem : (k, destructureSecretValue v) ∈ resolveSecrets (some m) := by
    rw [resolveSecrets_some]
    exact List.mem_filterMap.mpr ⟨(k, v), hm, by simp [hv]⟩
  rw [destructureSecretValue_of_mem v hc] at hmem
  exact hmem

/-- Witness for C1: the spec example input. -/
theorem secrets_entry_with_colon_witness :
    ("DB_PASS", ResolvedSecretReference.mk "my-secret" (some "password"))
      ∈ resolveSecrets (some [("DB_PASS", "my-secret:password")]) := by
  have h := secrets_entry_with_colon [("DB_PASS", "my-secret:password")]
    "DB_PASS" "my-secret:password" (by decide) (by decide) (by decide)
  have e : ResolvedSecretReference.mk
      (("my-secret:password".toList.takeWhile (fun c => c != ':')).asString)
      (some
        (((("my-secret:password".toList.dropWhile
          (fun c => c != ':')).tail).takeWhile (fun c => c != ':')).asString))
      = ResolvedSecretReference.mk "my-secret" (some "password") := by decide
  exact e ▸ h

/-- C2 counterexample: on the spec example value `"my-secret"` (no colon)
the destructured `fieldName` is JS `undefined` (`none`), not the empty
string. -/
theorem secrets_missing_colon_counterexample :
    resolveSecrets (some [("DB_PASS", "my-secret")]) =
        [("DB_PASS", ResolvedSecretReference.mk "my-secret" none)] ∧
      resolveSecrets (some [("DB_PASS", "my-secret")]) ≠
        [("DB_PASS", ResolvedSecretReference.mk "my-secret" (some ""))] :=
  ⟨by decide, by decide⟩

/-- C2 (amended). For every secrets-map entry whose value is a non-empty
string with no colon, the resolution raises no error and produces an output
entry under the same key whose `secretName` is the whole value and whose
`fieldName` is absent (JS `undefined`, modelled `none`) rather than the
empty string. -/
theorem secrets_missing_colon_amended (m : List (String × String))
    (k v : String) (hm : (k, v) ∈ m) (hv : v ≠ "") (hc : ':' ∉ v.toList) :
    (k, ResolvedSecretReference.mk v none) ∈ resolveSecrets (some m) ∧
      resolveSecretsE (some m) = Except.ok (resolveSecrets (some m)) := by
  constructor
  · have hmem : (k, destructureSecretValue v) ∈ resolveSecrets (some m) := by
      rw [resolveSecrets_some]
      exact List.mem_filterMap.mpr ⟨(k, v), hm, by simp [hv]⟩
    rw [destructureSecretValue_of_not_mem v hc] at hmem
    exact hmem
  · rw [resolveSecrets_some]
    exact resolveSecretsE_go m []

/-- Witness for the amended C2: the spec example input. -/
theorem secrets_missing_colon_amended_witness :
    ("DB_PASS", ResolvedSecretReference.mk "my-secret" none)
      ∈ resolveSecrets (some [("DB_PASS", "my-secret")]) :=
  (secrets_missing_colon_amended [("DB_PASS", "my-secret")] "DB_PASS"
    "my-secret" (by decide) (by decide) (by decide)).1

/-- C3. The output of `resolveSecrets` has exactly one entry per input entry
with a non-empty value, hence never more entries than the input; an absent
map yields the empty output, and so does the map whose only value is the
empty string. -/
theorem secrets_output_size (m : List (String × String)) :
    (resolveSecrets (some m)).length = m.countP (fun e => e.2 != "") ∧
      (resolveSecrets (some m)).length ≤ m.length ∧
      resolveSecrets none = [] ∧
      resolveSecrets (some [("X", "")]) = [] := by
  refine ⟨?_, ?_, rfl, rfl⟩
  · rw [resolveSecrets_some_eq, List.length_map, ←
      List.countP_eq_length_filter]
  · rw [resolveSecrets_some_eq, List.length_map]
    exact List.length_filter_le _ _

/-- C9. `resolveSecrets` preserves keys: the output keys are exactly the
input keys whose value is non-empty (in input order), and every output
entry's reference is the destructuring of that same key's input value, so
no entry appears under a key absent from the input. -/
theorem secrets_keys_preserved (m : List (String × String)) :
    (resolveSecrets (some m)).map Prod.fst =
        (m.filter (fun e => e.2 != "")).map Prod.fst ∧
      ∀ p ∈ resolveSecrets (some m),
        ∃ v, (p.1, v) ∈ m ∧ v ≠ "" ∧ p.2 = destructureSecretValue v := by
  constructor
  · rw [resolveSecrets_some_eq, List.map_map]
    rfl
  · intro p hp
    rw [resolveSecrets_some_eq] at hp
    obtain ⟨e, hem, heq⟩ := List.mem_map.mp hp
    have hmem : e ∈ m := List.mem_of_mem_filter hem
    have hne : e.2 ≠ "" := by simpa using List.of_mem_filter hem
    obtain ⟨p1, p2⟩ := p
    injection heq with h1 h2
    exact ⟨e.2, by rw [← h1]; exact hmem, hne, h2.symm⟩

/-- Witness for C9: keys of the spec example map with one empty value. -/
theorem secrets_keys_preserved_witness :
    (resolveSecrets
        (some [("DB_PASS", "my-secret:password"), ("X", "")])).map Prod.fst =
      ["DB_PASS"] := by
  rw [(secrets_keys_preserved
    [("DB_PASS", "my-secret:password"), ("X", "")]).1]
  decide

/-- C4. `resolveImage` returns the hardcoded public image reference
`nginxdemos/hello:latest` exactly when the version selector equals the
sentinel `"default"`, and otherwise a reference into the caller-supplied
repository tagged with the selector string. -/
theorem image_selection (v repo : String) :
    (resolveImage v repo =
        ContainerImage.fromRegistry "nginxdemos/hello:latest" ↔
      v = "default") ∧
      (v ≠ "default" →
        resolveImage v repo = ContainerImage.fromEcrRepository repo v) := by
  unfold resolveImage DEFAULT_VERSION DEFAULT_IMAGE
  by_cases h : v = "default" <;> simp [h]

/-- Witness for C4: the spec example selector. -/
theorem image_selection_witness :
    resolveImage "v2" "default" =
      ContainerImage.fromEcrRepository "default" "v2" :=
  (image_selection "v2" "default").2 (by decide)

/-- C5. `resolveSizing` yields the defaults 512 / 256 / 1 / 60 seconds for
each numeric field that is absent or zero (falsy) and for an absent grace
period, and yields the supplied value for every present, truthy field. -/
theorem sizing_defaults (tc : TaskConfiguration) :
    ((tc.memoryLimitMiB = none ∨ tc.memoryLimitMiB = some 0) →
        (resolveSizing tc).memoryLimitMiB = 512) ∧
      (∀ n, tc.memoryLimitMiB = some n → n ≠ 0 →
        (resolveSizing tc).memoryLimitMiB = n) ∧
      ((tc.cpu = none ∨ tc.cpu = some 0) → (resolveSizing tc).cpu = 256) ∧
      (∀ n, tc.cpu = some n → n ≠ 0 → (resolveSizing tc).cpu = n) ∧
      ((tc.desiredCount = none ∨ tc.desiredCount = some 0) →
        (resolveSizing tc).desiredCount = 1) ∧
      (∀ n, tc.desiredCount = some n → n ≠ 0 →
        (resolveSizing tc).desiredCount = n) ∧
      (tc.healthCheckGracePeriod = none →
        (resolveSizing tc).healthCheckGracePeriod = Duration.seconds 60) ∧
      (∀ d, tc.healthCheckGracePeriod = some d →
        (resolveSizing tc).healthCheckGracePeriod = d) := by
  refine ⟨?_, ?_, ?_, ?_, ?_, ?_, ?_, ?_⟩
  · rintro (h | h) <;> simp [resolveSizing, jsOrNat, h]
  · intro n h hn
    simp [resolveSizing, jsOrNat, h, hn]
  · rintro (h | h) <;> simp [resolveSizing, jsOrNat, h]
  · intro n h hn
    simp [resolveSizing, jsOrNat, h, hn]
  · rintro (h | h) <;> simp [resolveSizing, jsOrNat, h]
  · intro n h hn
    simp [resolveSizing, jsOrNat, h, hn]
  · intro h
    simp [resolveSizing, jsOrDuration, h]
  · intro d h
    simp [resolveSizing, jsOrDuration, h]

/-- Witness for C5: the two spec examples, `resolveSizing({})` and
`resolveSizing({cpu: 1024})`. -/
theorem sizing_defaults_witness :
    (resolveSizing {}).memoryLimitMiB = 512 ∧
      (resolveSizing {}).cpu = 256 ∧
      (resolveSizing {}).desiredCount = 1 ∧
      (resolveSizing {}).healthCheckGracePeriod = Duration.seconds 60 ∧
      (resolveSizing { cpu := some 1024 }).cpu = 1024 :=
  ⟨(sizing_defaults {}).1 (Or.inl rfl),
    (sizing_defaults {}).2.2.1 (Or.inl rfl),
    (sizing_defaults {}).2.2.2.2.1 (Or.inl rfl),
    (sizing_defaults {}).2.2.2.2.2.2.1 rfl,
    (sizing_defaults { cpu := some 1024 }).2.2.2.1 1024 rfl (by decide)⟩

/-- C6. Resolution is total on the documented input contract: for every
secrets map (present or absent) the compilation never reaches its failure
path (the `undefined` dereference made explicit in `resolveSecretsE`), and
the sizing expressions are defined even when the whole task configuration is
absent, agreeing with the resolution of the empty configuration. -/
theorem resolution_total (sv : Option (List (String × String)))
    (otc : Option TaskConfiguration) :
    resolveSecretsE sv = Except.ok (resolveSecrets sv) ∧
      resolveSizingOpt otc = resolveSizing (otc.getD {}) := by
  constructor
  · cases sv with
    | none => rfl
    | some entries =>
      rw [resolveSecrets_some]
      exact resolveSecretsE_go entries []
  · cases otc <;> rfl

/-- C7. The resolution steps are deterministic, mutation-free
transformations: the secrets loop writes only its `secrets` accumulator,
leaving the input `secretValues` component of the state untouched, and its
final accumulator coincides with the pure `resolveSecrets`; `resolveImage`
and `resolveSizing` are functions of their arguments alone, so two runs on
equal inputs return equal outputs. -/
theorem resolution_pure (m : List (String × String))
    (tc tc2 : TaskConfiguration) (v v2 repo repo2 : String)
    (htc : tc = tc2) (hv : v = v2) (hrepo : repo = repo2) :
    (compileSecrets m).secretValues = m ∧
      (compileSecrets m).secrets = resolveSecrets (some m) ∧
      resolveSizing tc = resolveSizing tc2 ∧
      resolveImage v repo = resolveImage v2 repo2 := by
  refine ⟨?_, ?_, by rw [htc], by rw [hv, hrepo]⟩
  · unfold compileSecrets
    rw [foldl_compileStep]
  · unfold compileSecrets
    rw [foldl_compileStep, resolveSecrets_some]
    rfl

/-- Witness for C7: the loop on the spec example map preserves its input
and produces the pure result. -/
theorem resolution_pure_witness :
    (compileSecrets [("DB_PASS", "my-secret:password")]).secretValues =
        [("DB_PASS", "my-secret:password")] ∧
      (compileSecrets [("DB_PASS", "my-secret:password")]).secrets =
        resolveSecrets (some [("DB_PASS", "my-secret:password")]) :=
  ⟨(resolution_pure [("DB_PASS", "my-secret:password")] {} {} "default"
      "default" "r" "r" rfl rfl rfl).1,
    (resolution_pure [("DB_PASS", "my-secret:password")] {} {} "default"
      "default" "r" "r" rfl rfl rfl).2.1⟩

/-- Unfolding `resolveSecretsTs` on a present map. -/
theorem resolveSecretsTs_some (m : List (String × String)) :
    resolveSecretsTs (some m) =
      ((List.range (objectKeys m).length).map (fun i => toString i)).foldlM
        (fun acc secretKey =>
          match jsSplitE (jsIndex m secretKey) ':' with
          | Except.error err => Except.error err
          | Except.ok segments =>
            Except.ok
              (acc ++
                [(secretKey,
                  ⟨(segments.take 2).headD "", (segments.take 2)[1]?⟩)]))
        [] := rfl

/-- C8 counterexample: on the one-entry map `DB_PASS ↦ my-secret:password`,
the `fargate.ts` loop iterates the array-index key `"0"`, reads
`secretValues["0"] = undefined`, and throws a `TypeError`, while the
`part_001` loop produces the resolved entry; so the two implementations do
not compute the same mapping without error. -/
theorem ts_loop_counterexample :
    resolveSecretsTs (some [("DB_PASS", "my-secret:password")]) =
        Except.error "TypeError: Cannot read properties of undefined" ∧
      resolveSecrets (some [("DB_PASS", "my-secret:password")]) =
        [("DB_PASS",
          ResolvedSecretReference.mk "my-secret" (some "password"))] :=
  ⟨rfl, rfl⟩

/-- C8 (amended). The two secrets-compilation loops agree on an absent or
empty secrets map, but are not equivalent in general: on every non-empty
map that lacks the literal key `"0"` (so on every ordinary secrets map),
the `fargate.ts` loop (`for...in` over `Object.keys`) dereferences
`undefined` on its first iteration and throws a `TypeError`, while the
`part_001` loop (`Object.entries` with a falsy guard) succeeds. -/
theorem ts_loop_amended (m : List (String × String)) (hne : m ≠ [])
    (h0 : jsIndex m "0" = none) :
    resolveSecretsTs none = Except.ok (resolveSecrets none) ∧
      resolveSecretsTs (some []) = Except.ok (resolveSecrets (some [])) ∧
      resolveSecretsTs (some m) =
        Except.error "TypeError: Cannot read properties of undefined" := by
  refine ⟨rfl, rfl, ?_⟩
  cases m with
  | nil => exact absurd rfl hne
  | cons e es =>
    have hkeys :
        (List.range (objectKeys (e :: es)).length).map (fun i => toString i)
          = "0" :: (List.range es.length).map
              (fun i => toString (Nat.succ i)) := by
      unfold objectKeys
      rw [List.length_map, List.length_cons, List.range_succ_eq_map,
        List.map_cons, List.map_map]
      rfl
    rw [resolveSecretsTs_some, hkeys, List.foldlM_cons]
    simp only [h0]
    rfl

/-- Witness for the amended C8: a concrete one-entry map without the key
`"0"`. -/
theorem ts_loop_amended_witness :
    resolveSecretsTs (some [("DB_PASS", "x")]) =
      Except.error "TypeError: Cannot read properties of undefined" :=
  (ts_loop_amended [("DB_PASS", "x")] (by decide) (by decide)).2.2

/-- C10. When the image-version selector is omitted from the props, the
destructuring default makes it the sentinel `"default"`, so the resolved
image is the fixed public placeholder and never a reference into the
caller-supplied repository. -/
theorem default_image_when_omitted (props : FargateServiceProps)
    (h : props.imageVersion = none) :
    destructuredImageVersion props = DEFAULT_VERSION ∧
      pickedImage props = ContainerImage.fromRegistry DEFAULT_IMAGE ∧
      ∀ r t, pickedImage props ≠ ContainerImage.fromEcrRepository r t := by
  have hd : destructuredImageVersion props = DEFAULT_VERSION := by
    unfold destructuredImageVersion
    rw [h]
  have hp : pickedImage props = ContainerImage.fromRegistry DEFAULT_IMAGE := by
    unfold pickedImage resolveImage
    rw [hd, if_pos rfl]
  refine ⟨hd, hp, fun r t hne => ?_⟩
  rw [hp] at hne
  exact ContainerImage.noConfusion hne

/-- Witness for C10: the empty props. -/
theorem default_image_when_omitted_witness :
    pickedImage {} = ContainerImage.fromRegistry "nginxdemos/hello:latest" :=
  (default_image_when_omitted {} rfl).2.1

end AwsFargate
